import Mathlib

/-!
Verification development for the Flyleaf designer (src/src/app/designer/page.tsx,
the snapshot containing the PDF document builder). JavaScript numbers are
modelled as rationals, JavaScript strings as Lean strings or as lists of
characters. Each definition is a direct translation of the corresponding
source function.
-/

namespace Flyleaf

/-- Book form record, source type BookFormState. -/
structure BookFormState where
  id : Int
  label : String
  heightCm : ℚ
  spineWidthCm : ℚ
  color : String
deriving DecidableEq, Repr

/-- Placed rectangle for one book, source type BookRect. -/
structure BookRect where
  id : Int
  label : String
  widthMm : ℚ
  heightMm : ℚ
  xMm : ℚ
  yMm : ℚ
  color : String
deriving DecidableEq, Repr

/-- Aggregate layout metrics, source type StackMetrics. -/
structure StackMetrics where
  totalWidthMm : ℚ
  maxHeightMm : ℚ
  minHeightMm : ℚ
  requiredWidthMm : ℚ
  requiredHeightMm : ℚ
  collectionWidthCm : ℚ
  fitsOnTabloid : Bool
deriving DecidableEq, Repr

/-- Layout result, source type StackLayout. -/
structure StackLayout where
  metrics : StackMetrics
  rects : List BookRect
deriving DecidableEq, Repr

def CM_TO_MM : ℚ := 10
def GAP_MM : ℚ := 2
def CLEARANCE_SIDE_MM : ℚ := 10
def CLEARANCE_TOP_MM : ℚ := 2
def CLEARANCE_BOTTOM_MM : ℚ := 2
def ART_SAFE_MARGIN_SIDE_MM : ℚ := 10
def ART_SAFE_MARGIN_VERTICAL_MM : ℚ := 2
def TABLOID_WIDTH_MM : ℚ := 17 * 25.4
def TABLOID_HEIGHT_MM : ℚ := 11 * 25.4
def PDF_RENDER_SCALE : ℚ := 5

/-- Source constant DEFAULT_BOOKS; also the concrete scenario of the spec
(4 books, height 23.5 cm, spine widths 4.25 / 4 / 4.75 / 2.25 cm). -/
def DEFAULT_BOOKS : List BookFormState :=
  [ ⟨1, "Book 1", 23.5, 4.25, "#2563eb"⟩,
    ⟨2, "Book 2", 23.5, 4, "#10b981"⟩,
    ⟨3, "Book 3", 23.5, 4.75, "#f97316"⟩,
    ⟨4, "Book 4", 23.5, 2.25, "#6366f1"⟩ ]

/-- Source function cmToMm. -/
def cmToMm (valueCm : ℚ) : ℚ := valueCm * CM_TO_MM

/-- JS `list.length ? Math.max(...list) : 0` over a list of numbers. -/
def maxOrZero : List ℚ → ℚ
  | [] => 0
  | h :: t => t.foldl max h

/-- JS `list.length ? Math.min(...list) : 0` over a list of numbers. -/
def minOrZero : List ℚ → ℚ
  | [] => 0
  | h :: t => t.foldl min h

/-- One step of the `widthsMm.reduce` accumulation in computeStackLayout:
the accumulator gains the width plus a gap for every index except 0. -/
def gapStep (acc : ℚ) (iw : Nat × ℚ) : ℚ :=
  acc + iw.2 + (if iw.1 = 0 then 0 else GAP_MM)

/-- One iteration of the `books.forEach` loop in computeStackLayout.  The
state is (cursorMm, index, rects so far). -/
def rectStep (maxHeightMm : ℚ) (st : ℚ × Nat × List BookRect)
    (book : BookFormState) : ℚ × Nat × List BookRect :=
  let widthMm := cmToMm book.spineWidthCm
  let heightMm := cmToMm book.heightCm
  let cursor := if st.2.1 > 0 then st.1 + GAP_MM else st.1
  let r : BookRect :=
    ⟨book.id, book.label, widthMm, heightMm, cursor,
      CLEARANCE_TOP_MM + (maxHeightMm - heightMm), book.color⟩
  (cursor + widthMm, st.2.1 + 1, st.2.2 ++ [r])

/-- Source function computeStackLayout. -/
def computeStackLayout (books : List BookFormState) : StackLayout :=
  let heightsMm := books.map (fun b => cmToMm b.heightCm)
  let widthsMm := books.map (fun b => cmToMm b.spineWidthCm)
  let maxHeightMm := maxOrZero heightsMm
  let minHeightMm := minOrZero heightsMm
  let totalWidthMm := (widthsMm.enum).foldl gapStep 0
  let rectsState := books.foldl (rectStep maxHeightMm) (CLEARANCE_SIDE_MM, 0, [])
  let requiredWidthMm := totalWidthMm + CLEARANCE_SIDE_MM * 2
  let requiredHeightMm := maxHeightMm + CLEARANCE_TOP_MM + CLEARANCE_BOTTOM_MM
  let fitsOnTabloid :=
    decide (requiredWidthMm ≤ TABLOID_WIDTH_MM) &&
    decide (requiredHeightMm ≤ TABLOID_HEIGHT_MM)
  { metrics :=
      { totalWidthMm := totalWidthMm
        maxHeightMm := maxHeightMm
        minHeightMm := minHeightMm
        requiredWidthMm := requiredWidthMm
        requiredHeightMm := requiredHeightMm
        collectionWidthCm := totalWidthMm / CM_TO_MM
        fitsOnTabloid := fitsOnTabloid }
    rects := rectsState.2.2 }

/-- Specification-side closed form of the rectangle loop: places the first
book at cursor `c`, each following book after a fixed gap.  Used to reason
about the fold in computeStackLayout. -/
def placeRects (maxH : ℚ) (c : ℚ) : List BookFormState → List BookRect
  | [] => []
  | b :: t =>
      ⟨b.id, b.label, cmToMm b.spineWidthCm, cmToMm b.heightCm, c,
        CLEARANCE_TOP_MM + (maxH - cmToMm b.heightCm), b.color⟩ ::
      placeRects maxH (c + cmToMm b.spineWidthCm + GAP_MM) t

/-- Artwork natural size, source type ArtworkDimensionsMm. -/
structure ArtworkDimensionsMm where
  widthMm : ℚ
  heightMm : ℚ
deriving DecidableEq, Repr

/-- Result of computeArtworkBounds. -/
structure ArtworkBounds where
  safeWidthMm : ℚ
  safeHeightMm : ℚ
  containerWidthMm : ℚ
  containerHeightMm : ℚ
  minZoom : ℚ
deriving DecidableEq, Repr

/-- JS `x || y` on numbers: a zero left operand falls through. -/
def jsOr (x y : ℚ) : ℚ := if x = 0 then y else x

/-- JS floating-point division, tracking non-finiteness: division by zero
yields `none` (the source's Infinity or NaN), which the guard in
computeArtworkBounds replaces by 1. -/
def jsDiv (a b : ℚ) : Option ℚ := if b = 0 then none else some (a / b)

/-- JS Math.max on two possibly non-finite quotients.  In the source the
only non-finite quotient that can arise is NaN (0/0), and Math.max
propagates NaN, so `none` absorbs. -/
def jsMax : Option ℚ → Option ℚ → Option ℚ
  | some x, some y => some (max x y)
  | _, _ => none

/-- The guard `Number.isFinite(minZoomRaw) && minZoomRaw > 0 ? minZoomRaw : 1`
from computeArtworkBounds: a non-finite (`none`) or non-positive raw zoom
falls back to 1. -/
def minZoomGuard : Option ℚ → ℚ
  | some q => if 0 < q then q else 1
  | none => 1

/-- Source function computeArtworkBounds. -/
def computeArtworkBounds (metrics : StackMetrics)
    (artworkDimensions : ArtworkDimensionsMm) : ArtworkBounds :=
  let safeWidthMm := metrics.totalWidthMm + ART_SAFE_MARGIN_SIDE_MM * 2
  let safeHeightMm := metrics.maxHeightMm + ART_SAFE_MARGIN_VERTICAL_MM * 2
  let fallbackWidthMm := jsOr metrics.requiredWidthMm safeWidthMm
  let fallbackHeightMm := jsOr metrics.requiredHeightMm safeHeightMm
  let baseWidthMm := jsOr artworkDimensions.widthMm fallbackWidthMm
  let baseHeightMm := jsOr artworkDimensions.heightMm fallbackHeightMm
  let minZoomRaw := jsMax (jsDiv safeWidthMm baseWidthMm) (jsDiv safeHeightMm baseHeightMm)
  let minZoom := minZoomGuard minZoomRaw
  ⟨safeWidthMm, safeHeightMm, metrics.requiredWidthMm, metrics.requiredHeightMm, minZoom⟩

/-- Result of computeOffsetLimits. -/
structure OffsetLimits where
  minX : ℚ
  maxX : ℚ
  minY : ℚ
  maxY : ℚ
deriving DecidableEq, Repr

/-- Source function computeOffsetLimits. -/
def computeOffsetLimits (bounds : ArtworkBounds)
    (artworkDimensions : ArtworkDimensionsMm) (zoom : ℚ) : OffsetLimits :=
  let baseWidthMm := jsOr artworkDimensions.widthMm bounds.safeWidthMm
  let baseHeightMm := jsOr artworkDimensions.heightMm bounds.safeHeightMm
  let artWidthMm := baseWidthMm * zoom
  let artHeightMm := baseHeightMm * zoom
  let horizontalRoomMm := max ((artWidthMm - bounds.safeWidthMm) / 2) 0
  let verticalRoomMm := max ((artHeightMm - bounds.safeHeightMm) / 2) 0
  ⟨-horizontalRoomMm, horizontalRoomMm, -verticalRoomMm, verticalRoomMm⟩

/-- Example stack metrics used for concrete checks: a safe area of
100 mm × 100 mm (totalWidth 80 + 2 × 10 side margin, maxHeight 96 + 2 × 2
vertical margin). -/
def DEMO_METRICS : StackMetrics := ⟨80, 96, 0, 100, 100, 8, true⟩

/-- Example artwork natural size 100 mm × 50 mm, whose aspect ratio differs
from the 100 mm × 100 mm safe area. -/
def DEMO_ART : ArtworkDimensionsMm := ⟨100, 50⟩

/-- Source function mmToPdfPixels. -/
def mmToPdfPixels (valueMm : ℚ) : ℚ := valueMm * PDF_RENDER_SCALE

/-- The maximum text width used by renderPdfPreview for wrapping:
`mmToPdfPixels(largeTextAreaWidthMm) * 0.92`, where the text area width is
the metrics' total spine width. -/
def maxTextWidthPx (m : StackMetrics) : ℚ := mmToPdfPixels m.totalWidthMm * 0.92

/-- Whitespace class of the `\s` regexes in wrapTextIntoLines, restricted
to the ASCII whitespace characters (the inputs of interest). -/
def isWs (c : Char) : Bool :=
  c = ' ' || c = '\t' || c = '\n' || c = '\r' || c = Char.ofNat 11 || c = Char.ofNat 12

/-- JS String.trim on a character list. -/
def trimWs (l : List Char) : List Char :=
  ((l.dropWhile isWs).reverse.dropWhile isWs).reverse

/-- JS `text.split(/\r?\n/)` on a character list. -/
def splitNl : List Char → List (List Char)
  | [] => [[]]
  | '\r' :: '\n' :: rest => [] :: splitNl rest
  | '\n' :: rest => [] :: splitNl rest
  | c :: rest =>
      match splitNl rest with
      | [] => [[c]]
      | l :: ls => (c :: l) :: ls

/-- Accumulator loop for `trimmed.split(/\s+/)` on an already trimmed
paragraph: runs of whitespace separate the words. -/
def splitWsGo : List Char → List Char → List (List Char)
  | acc, [] => if acc.isEmpty then [] else [acc.reverse]
  | acc, c :: rest =>
      if isWs c then
        if acc.isEmpty then splitWsGo [] rest
        else acc.reverse :: splitWsGo [] rest
      else splitWsGo (c :: acc) rest

/-- JS `trimmed.split(/\s+/)` on a character list (no leading/trailing
whitespace, as guaranteed by the trim in the source). -/
def splitWs (l : List Char) : List (List Char) := splitWsGo [] l

/-- One iteration of the inner `words.forEach` of wrapTextIntoLines:
either the test line still fits and becomes the current line, or the
current line is emitted and the word starts a new line. -/
def wrapStep (measure : List Char → ℚ) (maxWidth : ℚ)
    (st : List Char × List (List Char)) (word : List Char) :
    List Char × List (List Char) :=
  let testLine := trimWs (st.1 ++ ' ' :: word)
  if measure testLine ≤ maxWidth then (testLine, st.2)
  else (word, st.2 ++ [st.1])

/-- The per-paragraph body of wrapTextIntoLines: the first word is shifted
off as the initial current line, the rest are folded with wrapStep, and the
final current line is pushed. -/
def wrapParagraph (measure : List Char → ℚ) (maxWidth : ℚ)
    (words : List (List Char)) : List (List Char) :=
  let st := words.tail.foldl (wrapStep measure maxWidth) (words.headD [], [])
  st.2 ++ [st.1]

/-- The per-paragraph step of the outer `paragraphs.forEach` of
wrapTextIntoLines: an empty (after trimming) paragraph contributes an empty
line unless it is the last paragraph. -/
def paraStep (measure : List Char → ℚ) (maxWidth : ℚ) (plen : Nat)
    (lines : List (List Char)) (ip : Nat × List Char) : List (List Char) :=
  let trimmed := trimWs ip.2
  if trimmed.isEmpty then
    if ip.1 < plen - 1 then lines ++ [[]] else lines
  else lines ++ wrapParagraph measure maxWidth (splitWs trimmed)

/-- Source function wrapTextIntoLines; the canvas context is abstracted to
the text-measure function `measure` and strings to lists of characters. -/
def wrapTextIntoLines (measure : List Char → ℚ) (text : List Char)
    (maxWidth : ℚ) : List (List Char) :=
  let paragraphs := splitNl text
  (paragraphs.enum).foldl (paraStep measure maxWidth paragraphs.length) []

/-- A produced line is good when it spans no explicit line break and, if it
holds more than one word (contains a space), fits the maximum width. -/
def goodLine (measure : List Char → ℚ) (maxWidth : ℚ) (line : List Char) : Prop :=
  '\n' ∉ line ∧ (' ' ∈ line → measure line ≤ maxWidth)

/-- Character-count measure used for concrete wrap checks. -/
def DEMO_MEASURE : List Char → ℚ := fun l => (l.length : ℚ)

/-- The single word "hello". -/
def DEMO_TEXT : List Char := ['h', 'e', 'l', 'l', 'o']

/-- The two-word text "a b". -/
def DEMO_TEXT2 : List Char := ['a', ' ', 'b']

/-- Editable update actions the designer UI passes to handleUpdateBook
(keys "label" / "color" with the raw string, keys "heightCm" /
"spineWidthCm" with `Number(value)`; the numeric parse is abstracted to
the parsed rational). -/
inductive BookUpdate where
  | setLabel (value : String)
  | setColor (value : String)
  | setHeightCm (value : ℚ)
  | setSpineWidthCm (value : ℚ)
deriving DecidableEq, Repr

/-- The field update `{...book, [key]: value}` of handleUpdateBook. -/
def applyUpdate (u : BookUpdate) (b : BookFormState) : BookFormState :=
  match u with
  | .setLabel v => { b with label := v }
  | .setColor v => { b with color := v }
  | .setHeightCm v => { b with heightCm := v }
  | .setSpineWidthCm v => { b with spineWidthCm := v }

/-- Source handler handleUpdateBook: maps the update over the matching id. -/
def handleUpdateBook (id : Int) (u : BookUpdate)
    (current : List BookFormState) : List BookFormState :=
  current.map fun book => if book.id = id then applyUpdate u book else book

/-- Source handler handleAddBook: appends a book with id nextId, copying
the last book's height (default 22). -/
def handleAddBook (nextId : Int) (current : List BookFormState) : List BookFormState :=
  current ++ [⟨nextId, "Book " ++ toString nextId,
    ((current.getLast?).map (fun b => b.heightCm)).getD 22, 3.5, "#0ea5e9"⟩]

/-- Source handler handleRemoveBook: filters out the id unless only one
book remains. -/
def handleRemoveBook (id : Int) (current : List BookFormState) : List BookFormState :=
  if current.length > 1 then current.filter (fun book => book.id != id) else current

/-- Designer session state: the books list plus the id counter `nextId`. -/
structure DesignerState where
  books : List BookFormState
  nextId : Int
deriving DecidableEq, Repr

/-- The three book-list operations available in the designer. -/
inductive DesignerOp where
  | add
  | update (id : Int) (u : BookUpdate)
  | remove (id : Int)
deriving DecidableEq, Repr

/-- Effect of one designer operation on the session state. -/
def applyOp (s : DesignerState) : DesignerOp → DesignerState
  | .add => ⟨handleAddBook s.nextId s.books, s.nextId + 1⟩
  | .update id u => ⟨handleUpdateBook id u s.books, s.nextId⟩
  | .remove id => ⟨handleRemoveBook id s.books, s.nextId⟩

/-- Invariant maintained by the designer handlers: a non-empty book list,
pairwise distinct ids, and all ids below the counter. -/
def DesignerInv (s : DesignerState) : Prop :=
  s.books ≠ [] ∧ (s.books.map (fun b => b.id)).Nodup ∧
  ∀ b ∈ s.books, b.id < s.nextId

/-- Page payload handed to buildMultiPagePdf, source type PdfPageImage:
compressed raster bytes plus pixel dimensions. -/
structure PdfPageImage where
  jpegBytes : List Nat
  widthPx : Nat
  heightPx : Nat
deriving DecidableEq, Repr

/-- Source function mmToPoints. -/
def mmToPoints (valueMm : ℚ) : ℚ := valueMm / 25.4 * 72

/-- Two-digit zero padding for the fractional part of toFixed2. -/
def pad2 (n : Nat) : String := if n < 10 then "0" ++ toString n else toString n

/-- JS Number.prototype.toFixed(2), modelled for the nonnegative arguments
the builder produces: round to the nearest hundredth, print two decimals. -/
def toFixed2 (q : ℚ) : String :=
  let n : Int := ⌊q * 100 + 1 / 2⌋
  toString (n / 100) ++ "." ++ pad2 (n % 100).toNat

/-- Source function padPdfOffset: `value.toString().padStart(10, "0")`. -/
def padPdfOffset (value : Nat) : String :=
  String.mk (List.replicate (10 - (toString value).length) '0') ++ toString value

/-- UTF-8 bytes of the builder's ASCII strings. -/
def strBytes (s : String) : List Nat := s.data.map Char.toNat

/-- Builder state of buildMultiPagePdf: the chunks written so far, the
offsets array (`none` = not yet assigned; index 0 holds the initial 0), and
the running byte counter currentOffset. -/
structure BuildSt where
  chunks : List (List Nat)
  offs : Nat → Option Nat
  cur : Nat

/-- The `write` helper of buildMultiPagePdf: append a chunk and advance
currentOffset by its byte length. -/
def stWrite (st : BuildSt) (chunk : List Nat) : BuildSt :=
  ⟨st.chunks ++ [chunk], st.offs, st.cur + chunk.length⟩

/-- Bytes of the object header `${objectNumber} 0 obj\n`. -/
def objHeaderBytes (objectNumber : Nat) : List Nat :=
  strBytes (toString objectNumber ++ " 0 obj\n")

/-- The `beginObject` helper of buildMultiPagePdf: record the current
offset for the object number and write the object header. -/
def beginObject (st : BuildSt) (objectNumber : Nat) : BuildSt :=
  stWrite
    ⟨st.chunks,
     fun m => if m = objectNumber then some st.cur else st.offs m,
     st.cur⟩
    (objHeaderBytes objectNumber)

/-- All bytes written so far; the returned Blob concatenates the chunks. -/
def outBytes (st : BuildSt) : List Nat := st.chunks.flatten

/-- The MediaBox string of buildMultiPagePdf. -/
def mediaBoxStr (pageWidthMm pageHeightMm : ℚ) : String :=
  "[0 0 " ++ toFixed2 (mmToPoints pageWidthMm) ++ " "
    ++ toFixed2 (mmToPoints pageHeightMm) ++ "]"

/-- The /Kids array of the pages tree: one reference `3 + 3*index` per
page, joined by spaces. -/
def kidsStr (pageCount : Nat) : String :=
  String.intercalate " "
    ((List.range pageCount).map fun index => toString (3 + index * 3) ++ " 0 R")

/-- The per-page content stream that scales the image to the page box. -/
def contentStreamStr (pageWidthMm pageHeightMm : ℚ) : String :=
  "q\n" ++ toFixed2 (mmToPoints pageWidthMm) ++ " 0 0 "
    ++ toFixed2 (mmToPoints pageHeightMm) ++ " 0 0 cm\n/Im0 Do\nQ\n"

/-- One iteration of the `pages.forEach` loop of buildMultiPagePdf: emits
the page object, the image object carrying the JPEG payload, and the
content stream object for the page at `ip.1`. -/
def emitPage (pageWidthMm pageHeightMm : ℚ) (st : BuildSt)
    (ip : Nat × PdfPageImage) : BuildSt :=
  let pageObjectNumber := 3 + ip.1 * 3
  let imageObjectNumber := pageObjectNumber + 1
  let contentObjectNumber := pageObjectNumber + 2
  let st1 := stWrite (beginObject st pageObjectNumber)
    (strBytes ("<< /Type /Page /Parent 2 0 R /MediaBox "
      ++ mediaBoxStr pageWidthMm pageHeightMm
      ++ " /Resources << /XObject << /Im0 " ++ toString imageObjectNumber
      ++ " 0 R >> /ProcSet [/PDF /ImageC] >> /Contents "
      ++ toString contentObjectNumber ++ " 0 R >>\nendobj\n"))
  let st2 := stWrite (beginObject st1 imageObjectNumber)
    (strBytes ("<< /Type /XObject /Subtype /Image /Width "
      ++ toString ip.2.widthPx ++ " /Height " ++ toString ip.2.heightPx
      ++ " /ColorSpace /DeviceRGB /BitsPerComponent 8 /Filter /DCTDecode /Length "
      ++ toString ip.2.jpegBytes.length ++ " >>\nstream\n"))
  let st3 := stWrite st2 ip.2.jpegBytes
  let st4 := stWrite st3 (strBytes "\nendstream\nendobj\n")
  let contentStream := contentStreamStr pageWidthMm pageHeightMm
  stWrite (beginObject st4 contentObjectNumber)
    (strBytes ("<< /Length " ++ toString contentStream.length
      ++ " >>\nstream\n" ++ contentStream ++ "endstream\nendobj\n"))

/-- Builder state after the `%PDF-1.4` header, the catalog object 1 and
the pages-tree object 2 have been written. -/
def pdfPrelude (pages : List PdfPageImage) : BuildSt :=
  let st0 : BuildSt := ⟨[], fun m => if m = 0 then some 0 else none, 0⟩
  let st1 := stWrite st0 (strBytes "%PDF-1.4\n")
  let st2 := stWrite (beginObject st1 1)
    (strBytes "<< /Type /Catalog /Pages 2 0 R >>\nendobj\n")
  stWrite (beginObject st2 2)
    (strBytes ("<< /Type /Pages /Kids [" ++ kidsStr pages.length
      ++ "] /Count " ++ toString pages.length ++ " >>\nendobj\n"))

/-- Builder state after all per-page objects have been emitted. -/
def pdfAfterObjects (pages : List PdfPageImage)
    (pageWidthMm pageHeightMm : ℚ) : BuildSt :=
  (pages.enum).foldl (emitPage pageWidthMm pageHeightMm) (pdfPrelude pages)

/-- The startxref value captured just before the cross-reference table is
written: the currentOffset at that point. -/
def pdfStartXref (pages : List PdfPageImage)
    (pageWidthMm pageHeightMm : ℚ) : Nat :=
  (pdfAfterObjects pages pageWidthMm pageHeightMm).cur

/-- One cross-reference row: the zero-padded recorded offset
(`offsets[index] ?? 0`) followed by ` 00000 n \n`. -/
def xrefRowStr (offs : Nat → Option Nat) (index : Nat) : String :=
  padPdfOffset ((offs index).getD 0) ++ " 00000 n \n"

/-- Source function buildMultiPagePdf: the final builder state after the
cross-reference table and trailer have been written. -/
def buildMultiPagePdf (pages : List PdfPageImage)
    (pageWidthMm pageHeightMm : ℚ) : BuildSt :=
  let st4 := pdfAfterObjects pages pageWidthMm pageHeightMm
  let totalObjects := 2 + pages.length * 3
  let st5 := stWrite st4
    (strBytes ("xref\n0 " ++ toString (totalObjects + 1) ++ "\n"))
  let st6 := stWrite st5 (strBytes "0000000000 65535 f \n")
  let st7 := (List.range totalObjects).foldl
    (fun st index => stWrite st (strBytes (xrefRowStr st.offs (index + 1)))) st6
  stWrite st7
    (strBytes ("trailer\n<< /Size " ++ toString (totalObjects + 1)
      ++ " /Root 1 0 R >>\nstartxref\n"
      ++ toString (pdfStartXref pages pageWidthMm pageHeightMm) ++ "\n%%EOF"))

/-- The document bytes of buildMultiPagePdf (the Blob's contents). -/
def pdfBytes (pages : List PdfPageImage) (pageWidthMm pageHeightMm : ℚ) : List Nat :=
  outBytes (buildMultiPagePdf pages pageWidthMm pageHeightMm)

/-- The currentOffset counter equals the number of bytes actually written. -/
def Tracks (st : BuildSt) : Prop := st.cur = (outBytes st).length

/-- The header of object `n` actually starts at byte position `p` of the
output written so far. -/
def HdrAt (st : BuildSt) (n p : Nat) : Prop :=
  p + (objHeaderBytes n).length ≤ (outBytes st).length ∧
  ((outBytes st).drop p).take (objHeaderBytes n).length = objHeaderBytes n

/-- Every assigned offset of a real object (number ≥ 1) points at that
object's header in the output. -/
def OffsOk (st : BuildSt) : Prop :=
  ∀ n p, 1 ≤ n → st.offs n = some p → HdrAt st n p

/-- A one-page payload used for concrete checks. -/
def DEMO_PAGE : PdfPageImage := ⟨[255, 216, 255, 217], 2, 2⟩

/-! ### Theorems: stack layout engine -/

theorem foldl_rectStep_eq (maxH : ℚ) (bs : List BookFormState) :
    ∀ (c : ℚ) (k : Nat) (acc : List BookRect), k ≠ 0 →
      (bs.foldl (rectStep maxH) (c, k, acc)).2.2
        = acc ++ placeRects maxH (c + GAP_MM) bs := by
  induction bs with
  | nil => intro c k acc _; simp [placeRects]
  | cons b t ih =>
      intro c k acc hk
      have hpos : k > 0 := Nat.pos_of_ne_zero hk
      simp only [List.foldl_cons, rectStep, if_pos hpos]
      rw [ih _ (k + 1) _ (Nat.succ_ne_zero k)]
      simp [placeRects, List.append_assoc]

theorem computeStackLayout_rects (books : List BookFormState) :
    (computeStackLayout books).rects
      = placeRects (maxOrZero (books.map fun b => cmToMm b.heightCm))
          CLEARANCE_SIDE_MM books := by
  cases books with
  | nil => simp [computeStackLayout, placeRects]
  | cons b t =>
      simp only [computeStackLayout, List.foldl_cons, rectStep]
      norm_num
      rw [foldl_rectStep_eq _ _ _ 1 _ Nat.one_ne_zero]
      simp [placeRects]

theorem computeStackLayout_maxHeight (books : List BookFormState) :
    (computeStackLayout books).metrics.maxHeightMm
      = maxOrZero (books.map fun b => cmToMm b.heightCm) := by
  simp [computeStackLayout]

theorem placeRects_length (maxH : ℚ) (bs : List BookFormState) :
    ∀ c : ℚ, (placeRects maxH c bs).length = bs.length := by
  induction bs with
  | nil => intro c; simp [placeRects]
  | cons b t ih => intro c; simp [placeRects, ih]

theorem placeRects_getElem? (maxH : ℚ) (bs : List BookFormState) :
    ∀ (c : ℚ) (i : Nat) (b : BookFormState), bs[i]? = some b →
      ∃ r, (placeRects maxH c bs)[i]? = some r ∧
        r.id = b.id ∧ r.label = b.label ∧ r.color = b.color ∧
        r.widthMm = cmToMm b.spineWidthCm ∧ r.heightMm = cmToMm b.heightCm ∧
        r.yMm = CLEARANCE_TOP_MM + (maxH - cmToMm b.heightCm) := by
  induction bs with
  | nil => intro c i b hb; simp at hb
  | cons hd t ih =>
      intro c i b hb
      cases i with
      | zero =>
          simp only [List.getElem?_cons_zero, Option.some_inj] at hb
          subst hb
          exact ⟨⟨hd.id, hd.label, cmToMm hd.spineWidthCm, cmToMm hd.heightCm, c,
            CLEARANCE_TOP_MM + (maxH - cmToMm hd.heightCm), hd.color⟩,
            by simp [placeRects], rfl, rfl, rfl, rfl, rfl, rfl⟩
      | succ j =>
          simp only [List.getElem?_cons_succ] at hb
          obtain ⟨r, hr, hprops⟩ := ih _ j b hb
          exact ⟨r, by simpa [placeRects] using hr, hprops⟩

theorem placeRects_chain (maxH : ℚ) (bs : List BookFormState) :
    ∀ c : ℚ, List.Chain' (fun r s => s.xMm = r.xMm + r.widthMm + GAP_MM)
      (placeRects maxH c bs) := by
  induction bs with
  | nil => intro c; simp [placeRects]
  | cons b t ih =>
      intro c
      rw [placeRects, List.chain'_cons']
      refine ⟨?_, ih _⟩
      intro s hs
      cases t with
      | nil => simp [placeRects] at hs
      | cons b' t' =>
          simp only [placeRects, List.head?_cons, Option.mem_def,
            Option.some_inj] at hs
          subst hs
          rfl

theorem placeRects_x_lowerBound (maxH : ℚ) (bs : List BookFormState)
    (hw : ∀ b ∈ bs, 0 < b.spineWidthCm) :
    ∀ c : ℚ, ∀ r ∈ placeRects maxH c bs, c ≤ r.xMm := by
  induction bs with
  | nil => intro c r hr; simp [placeRects] at hr
  | cons b t ih =>
      intro c r hr
      have hwb : 0 < cmToMm b.spineWidthCm := by
        have := hw b (List.mem_cons_self b t)
        simp only [cmToMm, CM_TO_MM]
        linarith
      rw [placeRects] at hr
      rcases List.mem_cons.mp hr with h | h
      · subst h; exact le_refl _
      · have := ih (fun x hx => hw x (List.mem_cons_of_mem b hx)) _ r h
        have hg : (0 : ℚ) < GAP_MM := by norm_num [GAP_MM]
        linarith

theorem placeRects_pairwise (maxH : ℚ) (bs : List BookFormState)
    (hw : ∀ b ∈ bs, 0 < b.spineWidthCm) :
    ∀ c : ℚ, List.Pairwise (fun r s => r.xMm + r.widthMm < s.xMm)
      (placeRects maxH c bs) := by
  induction bs with
  | nil => intro c; simp [placeRects]
  | cons b t ih =>
      intro c
      rw [placeRects, List.pairwise_cons]
      refine ⟨?_, ih (fun x hx => hw x (List.mem_cons_of_mem b hx)) _⟩
      intro s hs
      have hlb := placeRects_x_lowerBound maxH t
        (fun x hx => hw x (List.mem_cons_of_mem b hx)) _ s hs
      have hg : (0 : ℚ) < GAP_MM := by norm_num [GAP_MM]
      simp only
      linarith

/-- C6: the rectangles are in input order (matching ids, labels, colors and
converted sizes), the first left edge sits at the side clearance, each
consecutive pair is separated by exactly the 2 mm gap, every top offset is
top clearance plus (tallest height − own height), and the rectangles are
pairwise disjoint left-to-right. -/
theorem c6_rect_placement (books : List BookFormState) (_hne : books ≠ [])
    (hw : ∀ b ∈ books, 0 < b.spineWidthCm) :
    (computeStackLayout books).rects.length = books.length ∧
    (∀ (i : Nat) (b : BookFormState), books[i]? = some b →
      ∃ r, (computeStackLayout books).rects[i]? = some r ∧
        r.id = b.id ∧ r.label = b.label ∧ r.color = b.color ∧
        r.widthMm = cmToMm b.spineWidthCm ∧ r.heightMm = cmToMm b.heightCm ∧
        r.yMm = CLEARANCE_TOP_MM
          + ((computeStackLayout books).metrics.maxHeightMm - cmToMm b.heightCm)) ∧
    (∀ r, (computeStackLayout books).rects[0]? = some r →
      r.xMm = CLEARANCE_SIDE_MM) ∧
    List.Chain' (fun r s => s.xMm = r.xMm + r.widthMm + GAP_MM)
      (computeStackLayout books).rects ∧
    List.Pairwise (fun r s => r.xMm + r.widthMm < s.xMm)
      (computeStackLayout books).rects := by
  rw [computeStackLayout_rects, computeStackLayout_maxHeight]
  refine ⟨placeRects_length _ _ _, ?_, ?_, placeRects_chain _ _ _,
    placeRects_pairwise _ _ hw _⟩
  · intro i b hb
    exact placeRects_getElem? _ _ _ i b hb
  · intro r hr
    cases books with
    | nil => simp [placeRects] at hr
    | cons b t =>
        simp only [placeRects, List.getElem?_cons_zero, Option.some_inj] at hr
        subst hr
        rfl

theorem c6_rect_placement_witness :
    (computeStackLayout DEFAULT_BOOKS).rects.length = DEFAULT_BOOKS.length ∧
    (∀ (i : Nat) (b : BookFormState), DEFAULT_BOOKS[i]? = some b →
      ∃ r, (computeStackLayout DEFAULT_BOOKS).rects[i]? = some r ∧
        r.id = b.id ∧ r.label = b.label ∧ r.color = b.color ∧
        r.widthMm = cmToMm b.spineWidthCm ∧ r.heightMm = cmToMm b.heightCm ∧
        r.yMm = CLEARANCE_TOP_MM
          + ((computeStackLayout DEFAULT_BOOKS).metrics.maxHeightMm - cmToMm b.heightCm)) ∧
    (∀ r, (computeStackLayout DEFAULT_BOOKS).rects[0]? = some r →
      r.xMm = CLEARANCE_SIDE_MM) ∧
    List.Chain' (fun r s => s.xMm = r.xMm + r.widthMm + GAP_MM)
      (computeStackLayout DEFAULT_BOOKS).rects ∧
    List.Pairwise (fun r s => r.xMm + r.widthMm < s.xMm)
      (computeStackLayout DEFAULT_BOOKS).rects :=
  c6_rect_placement DEFAULT_BOOKS (by simp [DEFAULT_BOOKS])
    (by intro b hb; fin_cases hb <;> norm_num)

theorem foldl_gapStep_enumFrom (ws : List ℚ) :
    ∀ (k : Nat), k ≠ 0 → ∀ acc : ℚ,
      (List.enumFrom k ws).foldl gapStep acc = acc + ws.sum + ws.length * GAP_MM := by
  induction ws with
  | nil => intro k _ acc; simp
  | cons w t ih =>
      intro k hk acc
      have h1 : (List.enumFrom k (w :: t)) = (k, w) :: List.enumFrom (k + 1) t := rfl
      rw [h1, List.foldl_cons, ih (k + 1) (Nat.succ_ne_zero k)]
      simp only [gapStep, if_neg hk, List.sum_cons, List.length_cons]
      push_cast
      ring

theorem totalWidth_eq (books : List BookFormState) (h : books ≠ []) :
    (computeStackLayout books).metrics.totalWidthMm
      = (books.map (fun b => cmToMm b.spineWidthCm)).sum
        + ((books.length - 1 : Nat) : ℚ) * GAP_MM := by
  obtain ⟨b, t, rfl⟩ := List.exists_cons_of_ne_nil h
  have h1 : ((b :: t).map (fun b => cmToMm b.spineWidthCm)).enum
      = (0, cmToMm b.spineWidthCm)
          :: List.enumFrom 1 (t.map (fun b => cmToMm b.spineWidthCm)) := rfl
  simp only [computeStackLayout, h1, List.foldl_cons,
    foldl_gapStep_enumFrom _ 1 (Nat.one_ne_zero)]
  simp only [gapStep, if_pos rfl, List.map_cons, List.sum_cons,
    List.length_cons, List.length_map, Nat.succ_sub_one]
  push_cast
  ring

/-- C5: for every non-empty book sequence, totalWidthMm equals the sum of
all spine widths converted to millimetres plus (n − 1) × 2 mm; a single
book gains no gap. -/
theorem c5_total_width (books : List BookFormState) (h : books ≠ []) :
    (computeStackLayout books).metrics.totalWidthMm
      = (books.map (fun b => cmToMm b.spineWidthCm)).sum
        + ((books.length - 1 : Nat) : ℚ) * GAP_MM :=
  totalWidth_eq books h

theorem c5_total_width_witness :
    (computeStackLayout DEFAULT_BOOKS).metrics.totalWidthMm
      = (DEFAULT_BOOKS.map (fun b => cmToMm b.spineWidthCm)).sum
        + ((DEFAULT_BOOKS.length - 1 : Nat) : ℚ) * GAP_MM :=
  c5_total_width DEFAULT_BOOKS (by simp [DEFAULT_BOOKS])

/-- C7: requiredHeightMm always equals maxHeightMm + 4 mm, and the
fitsOnTabloid flag holds exactly when the required area fits the fixed
431.8 mm × 279.4 mm target sheet. -/
theorem c7_required_height_and_fits (books : List BookFormState) :
    (computeStackLayout books).metrics.requiredHeightMm
        = (computeStackLayout books).metrics.maxHeightMm + 4 ∧
    ((computeStackLayout books).metrics.fitsOnTabloid = true ↔
      ((computeStackLayout books).metrics.requiredWidthMm ≤ TABLOID_WIDTH_MM ∧
       (computeStackLayout books).metrics.requiredHeightMm ≤ TABLOID_HEIGHT_MM)) := by
  constructor
  · simp only [computeStackLayout, CLEARANCE_TOP_MM, CLEARANCE_BOTTOM_MM]
    ring
  · simp [computeStackLayout]

/-- C2 counterexample: on the empty book sequence the metrics are not all
zero — requiredWidthMm is 20 (two side clearances), not 0. -/
theorem c2_counterexample :
    ¬ ((computeStackLayout []).metrics.totalWidthMm = 0 ∧
       (computeStackLayout []).metrics.maxHeightMm = 0 ∧
       (computeStackLayout []).metrics.minHeightMm = 0 ∧
       (computeStackLayout []).metrics.requiredWidthMm = 0 ∧
       (computeStackLayout []).metrics.requiredHeightMm = 0 ∧
       (computeStackLayout []).rects = []) := by
  intro h
  have h4 := h.2.2.2.1
  norm_num [computeStackLayout, maxOrZero, CLEARANCE_SIDE_MM,
    List.enum, List.enumFrom] at h4

/-- C2 (amended): for the empty book sequence computeStackLayout returns
totalWidthMm = maxHeightMm = minHeightMm = 0 and no rectangles, but
requiredWidthMm = 2 × side clearance = 20 mm and requiredHeightMm =
top + bottom clearance = 4 mm. -/
theorem c2_empty_layout :
    (computeStackLayout []).metrics.totalWidthMm = 0 ∧
    (computeStackLayout []).metrics.maxHeightMm = 0 ∧
    (computeStackLayout []).metrics.minHeightMm = 0 ∧
    (computeStackLayout []).metrics.requiredWidthMm = CLEARANCE_SIDE_MM * 2 ∧
    (computeStackLayout []).metrics.requiredHeightMm
      = CLEARANCE_TOP_MM + CLEARANCE_BOTTOM_MM ∧
    (computeStackLayout []).rects = [] := by
  norm_num [computeStackLayout, maxOrZero, minOrZero,
    CLEARANCE_SIDE_MM, CLEARANCE_TOP_MM, CLEARANCE_BOTTOM_MM,
    List.enum, List.enumFrom]

/-- C4 counterexample: for the 4-book default scenario the claimed
totalWidthMm = 161 (and requiredWidthMm = 201) do not hold: the spine
widths sum to 152.5 mm, so totalWidthMm is 158.5 mm, and the side
clearance is 10 mm per side, so requiredWidthMm is 178.5 mm. -/
theorem c4_counterexample :
    ¬ ((computeStackLayout DEFAULT_BOOKS).metrics.totalWidthMm = 161 ∧
       (computeStackLayout DEFAULT_BOOKS).metrics.requiredWidthMm = 201 ∧
       (computeStackLayout DEFAULT_BOOKS).metrics.requiredHeightMm = 239 ∧
       (computeStackLayout DEFAULT_BOOKS).metrics.fitsOnTabloid = true) := by
  intro h
  have h1 := h.1
  norm_num [computeStackLayout, DEFAULT_BOOKS, maxOrZero, gapStep, cmToMm,
    CM_TO_MM, GAP_MM, List.enum, List.enumFrom] at h1

/-- C4 (amended): the 4-book scenario (heights 23.5 cm, spine widths
4.25/4/4.75/2.25 cm) yields totalWidthMm = 158.5 (152.5 mm of spines plus
3 × 2 mm gaps), requiredWidthMm = 178.5 (10 mm clearance per side),
requiredHeightMm = 239, and the layout fits the target sheet. -/
theorem c4_default_scenario :
    (computeStackLayout DEFAULT_BOOKS).metrics.totalWidthMm = 158.5 ∧
    (computeStackLayout DEFAULT_BOOKS).metrics.requiredWidthMm = 178.5 ∧
    (computeStackLayout DEFAULT_BOOKS).metrics.requiredHeightMm = 239 ∧
    (computeStackLayout DEFAULT_BOOKS).metrics.fitsOnTabloid = true := by
  norm_num [computeStackLayout, DEFAULT_BOOKS, maxOrZero, minOrZero, gapStep,
    cmToMm, CM_TO_MM, GAP_MM, CLEARANCE_SIDE_MM, CLEARANCE_TOP_MM,
    CLEARANCE_BOTTOM_MM, TABLOID_WIDTH_MM, TABLOID_HEIGHT_MM,
    List.enum, List.enumFrom]

/-! ### Theorems: artwork bounds solver -/

theorem minZoomGuard_pos (o : Option ℚ) : 0 < minZoomGuard o := by
  cases o with
  | none => norm_num [minZoomGuard]
  | some q =>
      by_cases hq : 0 < q
      · simp [minZoomGuard, hq]
      · norm_num [minZoomGuard, hq]

theorem jsMax_none_left (o : Option ℚ) : jsMax none o = none := by
  cases o <;> rfl

/-- C8: computeArtworkBounds adds the artwork margins to the stack extents,
derives minZoom as the larger of the two cover ratios (falling back to the
required bounding area when an artwork dimension is zero), replaces a
degenerate (non-positive or non-finite) ratio by 1, and always returns a
positive minZoom. -/
theorem c8_artwork_bounds (m : StackMetrics) (art : ArtworkDimensionsMm) :
    (computeArtworkBounds m art).safeWidthMm
        = m.totalWidthMm + 2 * ART_SAFE_MARGIN_SIDE_MM ∧
    (computeArtworkBounds m art).safeHeightMm
        = m.maxHeightMm + 2 * ART_SAFE_MARGIN_VERTICAL_MM ∧
    0 < (computeArtworkBounds m art).minZoom ∧
    (art.widthMm ≠ 0 → art.heightMm ≠ 0 →
      0 < max ((computeArtworkBounds m art).safeWidthMm / art.widthMm)
              ((computeArtworkBounds m art).safeHeightMm / art.heightMm) →
      (computeArtworkBounds m art).minZoom
        = max ((computeArtworkBounds m art).safeWidthMm / art.widthMm)
              ((computeArtworkBounds m art).safeHeightMm / art.heightMm)) ∧
    (art.widthMm ≠ 0 → art.heightMm ≠ 0 →
      max ((computeArtworkBounds m art).safeWidthMm / art.widthMm)
          ((computeArtworkBounds m art).safeHeightMm / art.heightMm) ≤ 0 →
      (computeArtworkBounds m art).minZoom = 1) ∧
    (art.widthMm = 0 → art.heightMm = 0 →
      m.requiredWidthMm ≠ 0 → m.requiredHeightMm ≠ 0 →
      0 < max ((computeArtworkBounds m art).safeWidthMm / m.requiredWidthMm)
              ((computeArtworkBounds m art).safeHeightMm / m.requiredHeightMm) →
      (computeArtworkBounds m art).minZoom
        = max ((computeArtworkBounds m art).safeWidthMm / m.requiredWidthMm)
              ((computeArtworkBounds m art).safeHeightMm / m.requiredHeightMm)) ∧
    (art.widthMm = 0 → m.requiredWidthMm = 0 →
      m.totalWidthMm + ART_SAFE_MARGIN_SIDE_MM * 2 = 0 →
      (computeArtworkBounds m art).minZoom = 1) := by
  refine ⟨by simp only [computeArtworkBounds]; ring,
          by simp only [computeArtworkBounds]; ring,
          by simp only [computeArtworkBounds]; exact minZoomGuard_pos _,
          ?_, ?_, ?_, ?_⟩
  · intro hw hh hpos
    simp only [computeArtworkBounds, jsOr, jsDiv, jsMax, if_neg hw, if_neg hh] at hpos ⊢
    simp [minZoomGuard, hpos]
  · intro hw hh hle
    simp only [computeArtworkBounds, jsOr, jsDiv, jsMax, if_neg hw, if_neg hh] at hle ⊢
    simp [minZoomGuard, not_lt.mpr hle]
  · intro hw hh hrw hrh hpos
    simp only [computeArtworkBounds, jsOr, jsDiv, jsMax, hw, hh, if_pos rfl,
      if_neg hrw, if_neg hrh] at hpos ⊢
    simp [minZoomGuard, hpos, hrw, hrh]
  · intro hw hrw hsw
    simp only [computeArtworkBounds, jsOr, jsDiv, jsMax, hw, hrw, if_pos rfl, hsw]
    simp [minZoomGuard, jsMax_none_left]

theorem c8_artwork_bounds_witness :
    0 < (computeArtworkBounds DEMO_METRICS DEMO_ART).minZoom ∧
    (computeArtworkBounds DEMO_METRICS DEMO_ART).minZoom
      = max ((computeArtworkBounds DEMO_METRICS DEMO_ART).safeWidthMm / DEMO_ART.widthMm)
            ((computeArtworkBounds DEMO_METRICS DEMO_ART).safeHeightMm / DEMO_ART.heightMm) :=
  ⟨(c8_artwork_bounds DEMO_METRICS DEMO_ART).2.2.1,
   (c8_artwork_bounds DEMO_METRICS DEMO_ART).2.2.2.1
      (by norm_num [DEMO_ART]) (by norm_num [DEMO_ART])
      (by norm_num [computeArtworkBounds, DEMO_METRICS, DEMO_ART, jsOr, jsDiv,
        jsMax, minZoomGuard, ART_SAFE_MARGIN_SIDE_MM, ART_SAFE_MARGIN_VERTICAL_MM])⟩

/-- C3 counterexample: for a 100 mm × 100 mm safe area and a 100 mm × 50 mm
artwork, at zoom = minZoom = 2 the horizontal offset range is ±50 mm, not
{0} on both axes. -/
theorem c3_counterexample :
    ¬ ((computeOffsetLimits (computeArtworkBounds DEMO_METRICS DEMO_ART) DEMO_ART
          (computeArtworkBounds DEMO_METRICS DEMO_ART).minZoom).minX = 0 ∧
       (computeOffsetLimits (computeArtworkBounds DEMO_METRICS DEMO_ART) DEMO_ART
          (computeArtworkBounds DEMO_METRICS DEMO_ART).minZoom).maxX = 0 ∧
       (computeOffsetLimits (computeArtworkBounds DEMO_METRICS DEMO_ART) DEMO_ART
          (computeArtworkBounds DEMO_METRICS DEMO_ART).minZoom).minY = 0 ∧
       (computeOffsetLimits (computeArtworkBounds DEMO_METRICS DEMO_ART) DEMO_ART
          (computeArtworkBounds DEMO_METRICS DEMO_ART).minZoom).maxY = 0) := by
  intro h
  have h2 := h.2.1
  norm_num [computeOffsetLimits, computeArtworkBounds, DEMO_METRICS, DEMO_ART,
    jsOr, jsDiv, jsMax, minZoomGuard, ART_SAFE_MARGIN_SIDE_MM,
    ART_SAFE_MARGIN_VERTICAL_MM] at h2

/-- C3 (amended): at zoom = minZoom the offset range is symmetric about 0
and collapses to {0} on the axis whose cover ratio attains the maximum (so
on at least one axis); it is {0} on both axes exactly when the two cover
ratios coincide, i.e. when the artwork aspect matches the safe area. -/
theorem c3_offset_at_min_zoom (m : StackMetrics) (art : ArtworkDimensionsMm)
    (hw : 0 < art.widthMm) (hh : 0 < art.heightMm)
    (hsw : 0 < m.totalWidthMm + ART_SAFE_MARGIN_SIDE_MM * 2)
    (_hsh : 0 < m.maxHeightMm + ART_SAFE_MARGIN_VERTICAL_MM * 2) :
    (computeOffsetLimits (computeArtworkBounds m art) art
        (computeArtworkBounds m art).minZoom).minX
      = -(computeOffsetLimits (computeArtworkBounds m art) art
        (computeArtworkBounds m art).minZoom).maxX ∧
    (computeOffsetLimits (computeArtworkBounds m art) art
        (computeArtworkBounds m art).minZoom).minY
      = -(computeOffsetLimits (computeArtworkBounds m art) art
        (computeArtworkBounds m art).minZoom).maxY ∧
    0 ≤ (computeOffsetLimits (computeArtworkBounds m art) art
        (computeArtworkBounds m art).minZoom).maxX ∧
    0 ≤ (computeOffsetLimits (computeArtworkBounds m art) art
        (computeArtworkBounds m art).minZoom).maxY ∧
    ((m.maxHeightMm + ART_SAFE_MARGIN_VERTICAL_MM * 2) / art.heightMm
        ≤ (m.totalWidthMm + ART_SAFE_MARGIN_SIDE_MM * 2) / art.widthMm →
      (computeOffsetLimits (computeArtworkBounds m art) art
          (computeArtworkBounds m art).minZoom).maxX = 0) ∧
    ((m.totalWidthMm + ART_SAFE_MARGIN_SIDE_MM * 2) / art.widthMm
        ≤ (m.maxHeightMm + ART_SAFE_MARGIN_VERTICAL_MM * 2) / art.heightMm →
      (computeOffsetLimits (computeArtworkBounds m art) art
          (computeArtworkBounds m art).minZoom).maxY = 0) ∧
    ((computeOffsetLimits (computeArtworkBounds m art) art
        (computeArtworkBounds m art).minZoom).maxX = 0 ∨
     (computeOffsetLimits (computeArtworkBounds m art) art
        (computeArtworkBounds m art).minZoom).maxY = 0) ∧
    ((computeOffsetLimits (computeArtworkBounds m art) art
        (computeArtworkBounds m art).minZoom).maxX = 0 ∧
     (computeOffsetLimits (computeArtworkBounds m art) art
        (computeArtworkBounds m art).minZoom).maxY = 0 ↔
      (m.totalWidthMm + ART_SAFE_MARGIN_SIDE_MM * 2) / art.widthMm
        = (m.maxHeightMm + ART_SAFE_MARGIN_VERTICAL_MM * 2) / art.heightMm) := by
  have hw0 : art.widthMm ≠ 0 := ne_of_gt hw
  have hh0 : art.heightMm ≠ 0 := ne_of_gt hh
  set sw := m.totalWidthMm + ART_SAFE_MARGIN_SIDE_MM * 2 with hswdef
  set sh := m.maxHeightMm + ART_SAFE_MARGIN_VERTICAL_MM * 2 with hshdef
  have hq1 : 0 < sw / art.widthMm := div_pos hsw hw
  have hmaxpos : 0 < max (sw / art.widthMm) (sh / art.heightMm) :=
    lt_max_of_lt_left hq1
  have hzoom : (computeArtworkBounds m art).minZoom
      = max (sw / art.widthMm) (sh / art.heightMm) := by
    simp only [computeArtworkBounds, jsOr, jsDiv, jsMax, if_neg hw0, if_neg hh0]
    simp [minZoomGuard, hmaxpos]
  have hsafeW : (computeArtworkBounds m art).safeWidthMm = sw := rfl
  have hsafeH : (computeArtworkBounds m art).safeHeightMm = sh := rfl
  have hx : (computeOffsetLimits (computeArtworkBounds m art) art
      (computeArtworkBounds m art).minZoom).maxX
      = max ((art.widthMm * max (sw / art.widthMm) (sh / art.heightMm) - sw) / 2) 0 := by
    simp [computeOffsetLimits, jsOr, hw0, hh0, hzoom, hsafeW]
  have hy : (computeOffsetLimits (computeArtworkBounds m art) art
      (computeArtworkBounds m art).minZoom).maxY
      = max ((art.heightMm * max (sw / art.widthMm) (sh / art.heightMm) - sh) / 2) 0 := by
    simp [computeOffsetLimits, jsOr, hw0, hh0, hzoom, hsafeH]
  have hwq1 : art.widthMm * (sw / art.widthMm) = sw := by
    field_simp
  have hhq2 : art.heightMm * (sh / art.heightMm) = sh := by
    field_simp
  have hbx : sh / art.heightMm ≤ sw / art.widthMm →
      (computeOffsetLimits (computeArtworkBounds m art) art
        (computeArtworkBounds m art).minZoom).maxX = 0 := by
    intro hle
    rw [hx, max_eq_left hle, hwq1]
    simp
  have hby : sw / art.widthMm ≤ sh / art.heightMm →
      (computeOffsetLimits (computeArtworkBounds m art) art
        (computeArtworkBounds m art).minZoom).maxY = 0 := by
    intro hle
    rw [hy, max_eq_right hle, hhq2]
    simp
  have hconv : (computeOffsetLimits (computeArtworkBounds m art) art
        (computeArtworkBounds m art).minZoom).maxX = 0 →
      (computeOffsetLimits (computeArtworkBounds m art) art
        (computeArtworkBounds m art).minZoom).maxY = 0 →
      sw / art.widthMm = sh / art.heightMm := by
    intro hmx hmy
    rcases le_total (sw / art.widthMm) (sh / art.heightMm) with hle | hle
    · rw [hx, max_eq_right hle] at hmx
      have ha : (art.widthMm * (sh / art.heightMm) - sw) / 2 ≤ 0 := by
        rw [← hmx]
        exact le_max_left _ _
      have hb : art.widthMm * (sh / art.heightMm)
          ≤ art.widthMm * (sw / art.widthMm) := by
        rw [hwq1]
        linarith
      exact le_antisymm hle (le_of_mul_le_mul_left hb hw)
    · rw [hy, max_eq_left hle] at hmy
      have ha : (art.heightMm * (sw / art.widthMm) - sh) / 2 ≤ 0 := by
        rw [← hmy]
        exact le_max_left _ _
      have hb : art.heightMm * (sw / art.widthMm)
          ≤ art.heightMm * (sh / art.heightMm) := by
        rw [hhq2]
        linarith
      exact le_antisymm (le_of_mul_le_mul_left hb hh) hle
  refine ⟨rfl, rfl, by rw [hx]; exact le_max_right _ _,
    by rw [hy]; exact le_max_right _ _, hbx, hby, ?_, ?_⟩
  · rcases le_total (sw / art.widthMm) (sh / art.heightMm) with hle | hle
    · exact Or.inr (hby hle)
    · exact Or.inl (hbx hle)
  · constructor
    · intro hboth
      exact hconv hboth.1 hboth.2
    · intro heq
      exact ⟨hbx (le_of_eq heq.symm), hby (le_of_eq heq)⟩

theorem c3_offset_at_min_zoom_witness :
    (computeOffsetLimits (computeArtworkBounds DEMO_METRICS DEMO_ART) DEMO_ART
        (computeArtworkBounds DEMO_METRICS DEMO_ART).minZoom).minX
      = -(computeOffsetLimits (computeArtworkBounds DEMO_METRICS DEMO_ART) DEMO_ART
        (computeArtworkBounds DEMO_METRICS DEMO_ART).minZoom).maxX ∧
    (computeOffsetLimits (computeArtworkBounds DEMO_METRICS DEMO_ART) DEMO_ART
        (computeArtworkBounds DEMO_METRICS DEMO_ART).minZoom).minY
      = -(computeOffsetLimits (computeArtworkBounds DEMO_METRICS DEMO_ART) DEMO_ART
        (computeArtworkBounds DEMO_METRICS DEMO_ART).minZoom).maxY ∧
    0 ≤ (computeOffsetLimits (computeArtworkBounds DEMO_METRICS DEMO_ART) DEMO_ART
        (computeArtworkBounds DEMO_METRICS DEMO_ART).minZoom).maxX ∧
    0 ≤ (computeOffsetLimits (computeArtworkBounds DEMO_METRICS DEMO_ART) DEMO_ART
        (computeArtworkBounds DEMO_METRICS DEMO_ART).minZoom).maxY ∧
    ((DEMO_METRICS.maxHeightMm + ART_SAFE_MARGIN_VERTICAL_MM * 2) / DEMO_ART.heightMm
        ≤ (DEMO_METRICS.totalWidthMm + ART_SAFE_MARGIN_SIDE_MM * 2) / DEMO_ART.widthMm →
      (computeOffsetLimits (computeArtworkBounds DEMO_METRICS DEMO_ART) DEMO_ART
          (computeArtworkBounds DEMO_METRICS DEMO_ART).minZoom).maxX = 0) ∧
    ((DEMO_METRICS.totalWidthMm + ART_SAFE_MARGIN_SIDE_MM * 2) / DEMO_ART.widthMm
        ≤ (DEMO_METRICS.maxHeightMm + ART_SAFE_MARGIN_VERTICAL_MM * 2) / DEMO_ART.heightMm →
      (computeOffsetLimits (computeArtworkBounds DEMO_METRICS DEMO_ART) DEMO_ART
          (computeArtworkBounds DEMO_METRICS DEMO_ART).minZoom).maxY = 0) ∧
    ((computeOffsetLimits (computeArtworkBounds DEMO_METRICS DEMO_ART) DEMO_ART
        (computeArtworkBounds DEMO_METRICS DEMO_ART).minZoom).maxX = 0 ∨
     (computeOffsetLimits (computeArtworkBounds DEMO_METRICS DEMO_ART) DEMO_ART
        (computeArtworkBounds DEMO_METRICS DEMO_ART).minZoom).maxY = 0) ∧
    ((computeOffsetLimits (computeArtworkBounds DEMO_METRICS DEMO_ART) DEMO_ART
        (computeArtworkBounds DEMO_METRICS DEMO_ART).minZoom).maxX = 0 ∧
     (computeOffsetLimits (computeArtworkBounds DEMO_METRICS DEMO_ART) DEMO_ART
        (computeArtworkBounds DEMO_METRICS DEMO_ART).minZoom).maxY = 0 ↔
      (DEMO_METRICS.totalWidthMm + ART_SAFE_MARGIN_SIDE_MM * 2) / DEMO_ART.widthMm
        = (DEMO_METRICS.maxHeightMm + ART_SAFE_MARGIN_VERTICAL_MM * 2) / DEMO_ART.heightMm) :=
  c3_offset_at_min_zoom DEMO_METRICS DEMO_ART
    (by norm_num [DEMO_ART]) (by norm_num [DEMO_ART])
    (by norm_num [DEMO_METRICS, ART_SAFE_MARGIN_SIDE_MM])
    (by norm_num [DEMO_METRICS, ART_SAFE_MARGIN_VERTICAL_MM])

/-! ### Theorems: text wrapping -/

theorem splitWsGo_chars (l : List Char) :
    ∀ acc : List Char, (∀ c ∈ acc, isWs c = false) →
      ∀ w ∈ splitWsGo acc l, ∀ c ∈ w, isWs c = false := by
  induction l with
  | nil =>
      intro acc hacc w hw c hc
      simp only [splitWsGo] at hw
      split at hw
      · simp at hw
      · simp only [List.mem_singleton] at hw
        subst hw
        exact hacc c (List.mem_reverse.mp hc)
  | cons a t ih =>
      intro acc hacc w hw c hc
      simp only [splitWsGo] at hw
      split at hw
      · split at hw
        · exact ih [] (by simp) w hw c hc
        · rcases List.mem_cons.mp hw with h | h
          · subst h
            exact hacc c (List.mem_reverse.mp hc)
          · exact ih [] (by simp) w h c hc
      · refine ih (a :: acc) ?_ w hw c hc
        intro c' hc'
        rcases List.mem_cons.mp hc' with h | h
        · subst h
          rename_i hna
          exact Bool.not_eq_true _ ▸ (by simpa using hna)
        · exact hacc c' h

theorem splitWs_chars (l : List Char) :
    ∀ w ∈ splitWs l, ∀ c ∈ w, isWs c = false :=
  splitWsGo_chars l [] (by simp)

theorem trimWs_subset (l : List Char) : ∀ c ∈ trimWs l, c ∈ l := by
  intro c hc
  simp only [trimWs] at hc
  have h1 := List.mem_reverse.mp hc
  have h2 := (List.dropWhile_sublist isWs).subset h1
  have h3 := List.mem_reverse.mp h2
  exact (List.dropWhile_sublist isWs).subset h3

theorem wrapStep_fold_good (measure : List Char → ℚ) (maxWidth : ℚ)
    (words : List (List Char)) :
    ∀ st : List Char × List (List Char),
      (∀ w ∈ words, ∀ c ∈ w, isWs c = false) →
      goodLine measure maxWidth st.1 →
      (∀ l ∈ st.2, goodLine measure maxWidth l) →
      goodLine measure maxWidth
        ((words.foldl (wrapStep measure maxWidth) st).1) ∧
      ∀ l ∈ (words.foldl (wrapStep measure maxWidth) st).2,
        goodLine measure maxWidth l := by
  induction words with
  | nil => intro st _ h1 h2; exact ⟨h1, h2⟩
  | cons w t ih =>
      intro st hws h1 h2
      simp only [List.foldl_cons]
      have hwchars : ∀ c ∈ w, isWs c = false :=
        hws w (List.mem_cons_self w t)
      refine ih _ (fun w' hw' => hws w' (List.mem_cons_of_mem _ hw')) ?_ ?_
      · simp only [wrapStep]
        split
        · rename_i htest
          constructor
          · intro hnl
            have hsub := trimWs_subset _ _ hnl
            rcases List.mem_append.mp hsub with h | h
            · exact h1.1 h
            · rcases List.mem_cons.mp h with h | h
              · exact absurd h (by decide)
              · have := hwchars '\n' h
                exact absurd this (by decide)
          · intro _
            exact htest
        · constructor
          · intro hnl
            have := hwchars '\n' hnl
            exact absurd this (by decide)
          · intro hsp
            have := hwchars ' ' hsp
            exact absurd this (by decide)
      · simp only [wrapStep]
        split
        · exact h2
        · intro l hl
          rcases List.mem_append.mp hl with h | h
          · exact h2 l h
          · simp only [List.mem_singleton] at h
            subst h
            exact h1

theorem wrapParagraph_good (measure : List Char → ℚ) (maxWidth : ℚ)
    (words : List (List Char))
    (hws : ∀ w ∈ words, ∀ c ∈ w, isWs c = false) :
    ∀ l ∈ wrapParagraph measure maxWidth words, goodLine measure maxWidth l := by
  intro l hl
  simp only [wrapParagraph] at hl
  have hstart : goodLine measure maxWidth (words.headD []) := by
    cases words with
    | nil => exact ⟨by simp, by simp⟩
    | cons w t =>
        constructor
        · intro h
          have := hws w (List.mem_cons_self w t) '\n' h
          exact absurd this (by decide)
        · intro h
          have := hws w (List.mem_cons_self w t) ' ' h
          exact absurd this (by decide)
  have htail : ∀ w ∈ words.tail, ∀ c ∈ w, isWs c = false :=
    fun w hw => hws w (List.mem_of_mem_tail hw)
  have hres := wrapStep_fold_good measure maxWidth words.tail
    (words.headD [], []) htail hstart (by simp)
  rcases List.mem_append.mp hl with h | h
  · exact hres.2 l h
  · simp only [List.mem_singleton] at h
    subst h
    exact hres.1

theorem foldl_paraStep_good (measure : List Char → ℚ) (maxWidth : ℚ)
    (plen : Nat) (l : List (Nat × List Char)) :
    ∀ acc : List (List Char),
      (∀ li ∈ acc, goodLine measure maxWidth li) →
      ∀ li ∈ l.foldl (paraStep measure maxWidth plen) acc,
        goodLine measure maxWidth li := by
  induction l with
  | nil => intro acc hacc li hli; exact hacc li hli
  | cons ip t ih =>
      intro acc hacc li hli
      simp only [List.foldl_cons] at hli
      refine ih _ ?_ li hli
      intro lj hlj
      simp only [paraStep] at hlj
      split at hlj
      · split at hlj
        · rcases List.mem_append.mp hlj with h | h
          · exact hacc lj h
          · simp only [List.mem_singleton] at h
            subst h
            exact ⟨by simp, by simp⟩
        · exact hacc lj hlj
      · rcases List.mem_append.mp hlj with h | h
        · exact hacc lj h
        · exact wrapParagraph_good measure maxWidth _
            (splitWs_chars _) lj h

/-- C9 (amended): every line produced by wrapTextIntoLines spans no
explicit line break, every line containing two or more words (a space)
measures within the maximum width — a single word alone on a line may
exceed it — and the renderer's maximum width is 92 % of the text box width
(the total spine width in PDF pixels). -/
theorem c9_wrap_lines (measure : List Char → ℚ) (text : List Char)
    (maxWidth : ℚ) :
    (∀ line ∈ wrapTextIntoLines measure text maxWidth,
      '\n' ∉ line ∧ (' ' ∈ line → measure line ≤ maxWidth)) ∧
    (∀ m : StackMetrics,
      maxTextWidthPx m = (23 / 25) * (PDF_RENDER_SCALE * m.totalWidthMm)) := by
  constructor
  · intro line hline
    exact foldl_paraStep_good measure maxWidth _ _ [] (by simp) line hline
  · intro m
    simp only [maxTextWidthPx, mmToPdfPixels]
    norm_num
    ring

theorem c9_wrap_lines_witness :
    '\n' ∉ ['a', ' ', 'b'] ∧
    (' ' ∈ ['a', ' ', 'b'] → DEMO_MEASURE ['a', ' ', 'b'] ≤ 10) :=
  (c9_wrap_lines DEMO_MEASURE DEMO_TEXT2 10).1 ['a', ' ', 'b'] (by decide)

/-- C9 counterexample: with the character-count measure and maximum width
1, the single word "hello" is produced as a line measuring 5 > 1, so a
produced line can exceed the maximum width passed in. -/
theorem c9_counterexample :
    ¬ (∀ line ∈ wrapTextIntoLines DEMO_MEASURE DEMO_TEXT 1,
        DEMO_MEASURE line ≤ 1) := by
  decide

/-! ### Theorems: designer state operations -/

theorem applyUpdate_id (u : BookUpdate) (b : BookFormState) :
    (applyUpdate u b).id = b.id := by
  cases u <;> rfl

theorem filter_id_length (l : List BookFormState) (i : Int)
    (h : (l.map (fun b => b.id)).Nodup) :
    l.length ≤ (l.filter (fun b => b.id != i)).length + 1 := by
  induction l with
  | nil => simp
  | cons b t ih =>
      simp only [List.map_cons, List.nodup_cons] at h
      by_cases hb : b.id = i
      · have hall : ∀ x ∈ t, (x.id != i) = true := by
          intro x hx
          rw [bne_iff_ne]
          intro hxi
          exact h.1 (List.mem_map.mpr ⟨x, hx, by rw [hxi, hb]⟩)
        have hfil : t.filter (fun b => b.id != i) = t :=
          List.filter_eq_self.mpr hall
        have hfb : (b.id != i) = false := by
          simp [bne, hb]
        simp only [List.length_cons, List.filter_cons, hfb]
        simp [hfil]
      · have hfb : (b.id != i) = true := by
          simp [bne, hb]
        have hih := ih h.2
        simp [List.filter_cons, hfb]
        omega

theorem removeBook_inv (s : DesignerState) (i : Int) (h : DesignerInv s) :
    DesignerInv ⟨handleRemoveBook i s.books, s.nextId⟩ := by
  obtain ⟨hne, hnd, hlt⟩ := h
  simp only [DesignerInv, handleRemoveBook]
  split
  · rename_i hlen
    refine ⟨?_, ?_, ?_⟩
    · have h1 := filter_id_length s.books i hnd
      have : 0 < (s.books.filter (fun b => b.id != i)).length := by omega
      exact List.ne_nil_of_length_pos this
    · exact List.Nodup.sublist ((s.books.filter_sublist).map _) hnd
    · intro b hb
      exact hlt b (List.mem_of_mem_filter hb)
  · exact ⟨hne, hnd, hlt⟩

theorem addBook_inv (s : DesignerState) (h : DesignerInv s) :
    DesignerInv ⟨handleAddBook s.nextId s.books, s.nextId + 1⟩ := by
  obtain ⟨hne, hnd, hlt⟩ := h
  refine ⟨by simp [handleAddBook], ?_, ?_⟩
  · simp only [handleAddBook, List.map_append, List.map_cons, List.map_nil]
    rw [List.nodup_append]
    refine ⟨hnd, List.nodup_singleton _, ?_⟩
    intro a ha hb
    simp only [List.mem_singleton] at hb
    subst hb
    obtain ⟨b, hbmem, hbid⟩ := List.mem_map.mp ha
    exact absurd (hbid ▸ hlt b hbmem) (lt_irrefl _)
  · intro b hb
    show b.id < s.nextId + 1
    simp only [handleAddBook, List.mem_append, List.mem_singleton] at hb
    rcases hb with hmem | hmem
    · exact lt_trans (hlt b hmem) (by omega)
    · subst hmem
      show s.nextId < s.nextId + 1
      omega

theorem updateBook_inv (s : DesignerState) (i : Int) (u : BookUpdate)
    (h : DesignerInv s) :
    DesignerInv ⟨handleUpdateBook i u s.books, s.nextId⟩ := by
  obtain ⟨hne, hnd, hlt⟩ := h
  have hid : ∀ b : BookFormState,
      ((if b.id = i then applyUpdate u b else b).id) = b.id := by
    intro b
    split
    · exact applyUpdate_id u b
    · rfl
  refine ⟨?_, ?_, ?_⟩
  · simpa [handleUpdateBook] using hne
  · simp only [handleUpdateBook, List.map_map]
    rw [show ((fun b : BookFormState => b.id)
          ∘ fun book => if book.id = i then applyUpdate u book else book)
        = fun b : BookFormState => b.id from funext fun b => hid b]
    exact hnd
  · intro b hb
    simp only [handleUpdateBook, List.mem_map] at hb
    obtain ⟨a, ha, rfl⟩ := hb
    rw [hid a]
    exact hlt a ha

theorem applyOp_inv (s : DesignerState) (op : DesignerOp)
    (h : DesignerInv s) : DesignerInv (applyOp s op) := by
  cases op with
  | add => exact addBook_inv s h
  | update i u => exact updateBook_inv s i u h
  | remove i => exact removeBook_inv s i h

theorem foldl_applyOp_inv (ops : List DesignerOp) :
    ∀ s : DesignerState, DesignerInv s → DesignerInv (ops.foldl applyOp s) := by
  induction ops with
  | nil => intro s h; exact h
  | cons op t ih => intro s h; exact ih _ (applyOp_inv s op h)

/-- C10: removing from a one-element book list leaves it unchanged, and
from any state satisfying the designer invariant — which the initial state
(DEFAULT_BOOKS, nextId 5) does — no sequence of add / update / remove
operations can make the book list empty. -/
theorem c10_books_never_empty :
    (∀ (i : Int) (books : List BookFormState), books.length = 1 →
        handleRemoveBook i books = books) ∧
    (∀ s : DesignerState, DesignerInv s →
        ∀ ops : List DesignerOp, (ops.foldl applyOp s).books ≠ []) ∧
    DesignerInv ⟨DEFAULT_BOOKS, 5⟩ := by
  refine ⟨?_, ?_, ?_, ?_, ?_⟩
  · intro i books h
    simp [handleRemoveBook, h]
  · intro s h ops
    exact (foldl_applyOp_inv ops s h).1
  · simp [DEFAULT_BOOKS]
  · simp only [DEFAULT_BOOKS, List.map_cons, List.map_nil]
    decide
  · intro b hb
    fin_cases hb <;> decide

theorem c10_books_never_empty_witness :
    handleRemoveBook 1 [⟨1, "Book 1", 22, 3.5, "#0ea5e9"⟩]
        = [⟨1, "Book 1", 22, 3.5, "#0ea5e9"⟩] ∧
    ([DesignerOp.remove 1, DesignerOp.add].foldl applyOp
        ⟨DEFAULT_BOOKS, 5⟩).books ≠ [] :=
  ⟨c10_books_never_empty.1 1 _ rfl,
   c10_books_never_empty.2.1 ⟨DEFAULT_BOOKS, 5⟩ c10_books_never_empty.2.2 _⟩

/-! ### Theorems: PDF document builder -/

theorem take_append_of_le (l₁ l₂ : List Nat) (n : Nat) (h : n ≤ l₁.length) :
    (l₁ ++ l₂).take n = l₁.take n := by
  induction l₁ generalizing n with
  | nil =>
      have : n = 0 := Nat.le_zero.mp h
      subst this
      simp
  | cons a t ih =>
      cases n with
      | zero => simp
      | succ m =>
          simp only [List.cons_append, List.take_succ_cons]
          rw [ih m (by simpa using h)]

theorem drop_append_of_le (l₁ l₂ : List Nat) (n : Nat) (h : n ≤ l₁.length) :
    (l₁ ++ l₂).drop n = l₁.drop n ++ l₂ := by
  induction l₁ generalizing n with
  | nil =>
      have : n = 0 := Nat.le_zero.mp h
      subst this
      simp
  | cons a t ih =>
      cases n with
      | zero => simp
      | succ m =>
          simp only [List.cons_append, List.drop_succ_cons]
          exact ih m (by simpa using h)

theorem outBytes_stWrite (st : BuildSt) (c : List Nat) :
    outBytes (stWrite st c) = outBytes st ++ c := by
  simp [outBytes, stWrite, List.flatten_append]

theorem offs_stWrite (st : BuildSt) (c : List Nat) :
    (stWrite st c).offs = st.offs := rfl

theorem cur_stWrite (st : BuildSt) (c : List Nat) :
    (stWrite st c).cur = st.cur + c.length := rfl

theorem hdrAt_extend {L : List Nat} {n p : Nat} (M : List Nat)
    (h1 : p + (objHeaderBytes n).length ≤ L.length)
    (h2 : (L.drop p).take (objHeaderBytes n).length = objHeaderBytes n) :
    ((L ++ M).drop p).take (objHeaderBytes n).length = objHeaderBytes n := by
  rw [drop_append_of_le _ _ _ (by omega), take_append_of_le]
  · exact h2
  · rw [List.length_drop]
    omega

theorem hdrAt_stWrite {st : BuildSt} {n p : Nat} (c : List Nat)
    (h : HdrAt st n p) : HdrAt (stWrite st c) n p := by
  obtain ⟨h1, h2⟩ := h
  refine ⟨?_, ?_⟩
  · rw [outBytes_stWrite, List.length_append]
    omega
  · rw [outBytes_stWrite]
    exact hdrAt_extend c h1 h2

theorem tracks_stWrite {st : BuildSt} (c : List Nat) (h : Tracks st) :
    Tracks (stWrite st c) := by
  unfold Tracks at h ⊢
  rw [outBytes_stWrite, List.length_append, cur_stWrite, h]

theorem offsOk_stWrite {st : BuildSt} (c : List Nat) (h : OffsOk st) :
    OffsOk (stWrite st c) := by
  intro n p hn hsome
  exact hdrAt_stWrite c (h n p hn hsome)

theorem good_stWrite {st : BuildSt} (c : List Nat)
    (h : Tracks st ∧ OffsOk st) :
    Tracks (stWrite st c) ∧ OffsOk (stWrite st c) :=
  ⟨tracks_stWrite c h.1, offsOk_stWrite c h.2⟩

theorem outBytes_beginObject (st : BuildSt) (n : Nat) :
    outBytes (beginObject st n) = outBytes st ++ objHeaderBytes n := by
  simp [beginObject, outBytes, stWrite, List.flatten_append]

theorem beginObject_good {st : BuildSt} (n : Nat)
    (ht : Tracks st) (ho : OffsOk st) :
    Tracks (beginObject st n) ∧ OffsOk (beginObject st n) ∧
      (beginObject st n).offs n = some st.cur := by
  refine ⟨?_, ?_, ?_⟩
  · unfold Tracks at ht ⊢
    rw [outBytes_beginObject, List.length_append]
    show st.cur + (objHeaderBytes n).length = _
    omega
  · intro m p hm hsome
    have hsome' : (if m = n then some st.cur else st.offs m) = some p := hsome
    by_cases hmn : m = n
    · subst hmn
      rw [if_pos rfl, Option.some_inj] at hsome'
      subst hsome'
      refine ⟨?_, ?_⟩
      · rw [outBytes_beginObject, List.length_append, ht]
      · rw [outBytes_beginObject, ht, List.drop_left, List.take_length]
    · rw [if_neg hmn] at hsome'
      have hh := ho m p hm hsome'
      obtain ⟨h1, h2⟩ := hh
      refine ⟨?_, ?_⟩
      · rw [outBytes_beginObject, List.length_append]
        omega
      · rw [outBytes_beginObject]
        exact hdrAt_extend _ h1 h2
  · show (if n = n then some st.cur else st.offs n) = some st.cur
    rw [if_pos rfl]

theorem good_beginObject {st : BuildSt} (n : Nat)
    (h : Tracks st ∧ OffsOk st) :
    Tracks (beginObject st n) ∧ OffsOk (beginObject st n) :=
  ⟨(beginObject_good n h.1 h.2).1, (beginObject_good n h.1 h.2).2.1⟩

theorem emitPage_good (w h : ℚ) (st : BuildSt) (ip : Nat × PdfPageImage)
    (hg : Tracks st ∧ OffsOk st) :
    Tracks (emitPage w h st ip) ∧ OffsOk (emitPage w h st ip) := by
  unfold emitPage
  exact good_stWrite _ (good_beginObject _ (good_stWrite _ (good_stWrite _
    (good_stWrite _ (good_beginObject _ (good_stWrite _
      (good_beginObject _ hg)))))))

theorem emitPage_offs_ne (w h : ℚ) (st : BuildSt) (k : Nat)
    (page : PdfPageImage) (m : Nat)
    (h1 : m ≠ 3 + k * 3) (h2 : m ≠ 3 + k * 3 + 1) (h3 : m ≠ 3 + k * 3 + 2) :
    (emitPage w h st (k, page)).offs m = st.offs m := by
  simp only [emitPage, beginObject, stWrite]
  simp [h1, h2, h3]

theorem emitPage_offs_isSome (w h : ℚ) (st : BuildSt) (k : Nat)
    (page : PdfPageImage) (m : Nat)
    (hm : m = 3 + k * 3 ∨ m = 3 + k * 3 + 1 ∨ m = 3 + k * 3 + 2) :
    ((emitPage w h st (k, page)).offs m).isSome := by
  simp only [emitPage, beginObject, stWrite]
  rcases hm with hc | hc | hc <;> subst hc
  · rw [if_neg (by omega), if_neg (by omega), if_pos rfl]
    rfl
  · rw [if_neg (by omega), if_pos rfl]
    rfl
  · rw [if_pos rfl]
    rfl

theorem foldl_emitPage_good (w h : ℚ) (l : List (Nat × PdfPageImage)) :
    ∀ st : BuildSt, Tracks st ∧ OffsOk st →
      Tracks (l.foldl (emitPage w h) st) ∧
      OffsOk (l.foldl (emitPage w h) st) := by
  induction l with
  | nil => intro st hg; exact hg
  | cons ip t ih =>
      intro st hg
      exact ih _ (emitPage_good w h st ip hg)

theorem foldl_emitPage_offs_lt (w h : ℚ) (l : List PdfPageImage) :
    ∀ (k : Nat) (st : BuildSt) (m : Nat), m < 3 + k * 3 →
      ((List.enumFrom k l).foldl (emitPage w h) st).offs m = st.offs m := by
  induction l with
  | nil => intro k st m _; rfl
  | cons p t ih =>
      intro k st m hm
      have heq : List.enumFrom k (p :: t) = (k, p) :: List.enumFrom (k + 1) t := rfl
      rw [heq, List.foldl_cons, ih (k + 1) _ m (by omega)]
      exact emitPage_offs_ne w h st k p m (by omega) (by omega) (by omega)

theorem foldl_emitPage_offs_isSome (w h : ℚ) (l : List PdfPageImage) :
    ∀ (k : Nat) (st : BuildSt) (m : Nat),
      3 + k * 3 ≤ m → m < 3 + (k + l.length) * 3 →
      ((((List.enumFrom k l).foldl (emitPage w h) st)).offs m).isSome := by
  induction l with
  | nil =>
      intro k st m h1 h2
      simp only [List.length_nil, Nat.add_zero] at h2
      omega
  | cons p t ih =>
      intro k st m h1 h2
      have heq : List.enumFrom k (p :: t) = (k, p) :: List.enumFrom (k + 1) t := rfl
      rw [heq, List.foldl_cons]
      by_cases hm : m < 3 + (k + 1) * 3
      · rw [foldl_emitPage_offs_lt w h t (k + 1) _ m hm]
        exact emitPage_offs_isSome w h st k p m (by omega)
      · refine ih (k + 1) _ m (by omega) ?_
        simp only [List.length_cons] at h2
        omega

theorem pdfPrelude_good (pages : List PdfPageImage) :
    Tracks (pdfPrelude pages) ∧ OffsOk (pdfPrelude pages) := by
  unfold pdfPrelude
  refine good_stWrite _ (good_beginObject _ (good_stWrite _
    (good_beginObject _ (good_stWrite _ ⟨?_, ?_⟩))))
  · rfl
  · intro n p hn hsome
    have : (if n = 0 then some 0 else none) = some p := hsome
    rw [if_neg (by omega)] at this
    cases this

theorem pdfPrelude_offs_one (pages : List PdfPageImage) :
    ((pdfPrelude pages).offs 1).isSome := by
  simp [pdfPrelude, beginObject, stWrite]

theorem pdfPrelude_offs_two (pages : List PdfPageImage) :
    ((pdfPrelude pages).offs 2).isSome := by
  simp [pdfPrelude, beginObject, stWrite]

theorem pdfAfterObjects_good (pages : List PdfPageImage) (w h : ℚ) :
    Tracks (pdfAfterObjects pages w h) ∧ OffsOk (pdfAfterObjects pages w h) :=
  foldl_emitPage_good w h pages.enum _ (pdfPrelude_good pages)

theorem pdfAfterObjects_offs_isSome (pages : List PdfPageImage) (w h : ℚ)
    (N : Nat) (h1 : 1 ≤ N) (h2 : N ≤ 2 + pages.length * 3) :
    (((pdfAfterObjects pages w h)).offs N).isSome := by
  unfold pdfAfterObjects
  have henum : pages.enum = List.enumFrom 0 pages := rfl
  rw [henum]
  by_cases hN : N < 3
  · rw [foldl_emitPage_offs_lt w h pages 0 _ N (by omega)]
    interval_cases N
    · exact pdfPrelude_offs_one pages
    · exact pdfPrelude_offs_two pages
  · exact foldl_emitPage_offs_isSome w h pages 0 _ N (by omega) (by omega)

theorem foldl_xrefRows (l : List Nat) :
    ∀ st : BuildSt,
      ((l.foldl (fun st index =>
          stWrite st (strBytes (xrefRowStr st.offs (index + 1)))) st).chunks
        = st.chunks
          ++ l.map (fun index => strBytes (xrefRowStr st.offs (index + 1)))) ∧
      ((l.foldl (fun st index =>
          stWrite st (strBytes (xrefRowStr st.offs (index + 1)))) st).offs
        = st.offs) := by
  induction l with
  | nil => intro st; simp
  | cons a t ih =>
      intro st
      simp only [List.foldl_cons, List.map_cons]
      obtain ⟨hc, ho⟩ := ih (stWrite st (strBytes (xrefRowStr st.offs (a + 1))))
      constructor
      · rw [hc]
        simp [stWrite]
      · rw [ho]
        rfl

theorem foldl_xrefRows_out (l : List Nat) (st : BuildSt) :
    outBytes (l.foldl (fun st index =>
        stWrite st (strBytes (xrefRowStr st.offs (index + 1)))) st)
      = outBytes st
        ++ (l.map (fun index => strBytes (xrefRowStr st.offs (index + 1)))).flatten := by
  have h := foldl_xrefRows l st
  simp [outBytes, h.1, List.flatten_append]

/-- C1: in the document produced by buildMultiPagePdf, the cross-reference
table records for every object number N from 1 to the total object count
2 + 3·pageCount an offset equal to the exact byte position at which that
object's header `N 0 obj` begins, rendered through the 10-digit zero
padding of padPdfOffset; the table carries the sentinel free entry at
index 0; and the trailer's startxref value equals the byte position at
which the cross-reference table itself begins. -/
theorem c1_pdf_xref (pages : List PdfPageImage) (w h : ℚ) :
    (∀ N, 1 ≤ N → N ≤ 2 + pages.length * 3 →
      ∃ p, (buildMultiPagePdf pages w h).offs N = some p ∧
        ((pdfBytes pages w h).drop p).take (objHeaderBytes N).length
          = objHeaderBytes N) ∧
    pdfBytes pages w h
      = outBytes (pdfAfterObjects pages w h)
        ++ (strBytes ("xref\n0 " ++ toString (2 + pages.length * 3 + 1) ++ "\n")
        ++ (strBytes "0000000000 65535 f \n"
        ++ (((List.range (2 + pages.length * 3)).map
              (fun index => strBytes
                (xrefRowStr (buildMultiPagePdf pages w h).offs (index + 1)))).flatten
        ++ strBytes ("trailer\n<< /Size " ++ toString (2 + pages.length * 3 + 1)
            ++ " /Root 1 0 R >>\nstartxref\n"
            ++ toString (pdfStartXref pages w h) ++ "\n%%EOF")))) ∧
    (outBytes (pdfAfterObjects pages w h)).length = pdfStartXref pages w h := by
  obtain ⟨ht4, ho4⟩ := pdfAfterObjects_good pages w h
  have hoffs_final : (buildMultiPagePdf pages w h).offs
      = (pdfAfterObjects pages w h).offs := by
    unfold buildMultiPagePdf
    rw [offs_stWrite, (foldl_xrefRows _ _).2, offs_stWrite, offs_stWrite]
  have hdoc : pdfBytes pages w h
      = outBytes (pdfAfterObjects pages w h)
        ++ (strBytes ("xref\n0 " ++ toString (2 + pages.length * 3 + 1) ++ "\n")
        ++ (strBytes "0000000000 65535 f \n"
        ++ (((List.range (2 + pages.length * 3)).map
              (fun index => strBytes
                (xrefRowStr (pdfAfterObjects pages w h).offs (index + 1)))).flatten
        ++ strBytes ("trailer\n<< /Size " ++ toString (2 + pages.length * 3 + 1)
            ++ " /Root 1 0 R >>\nstartxref\n"
            ++ toString (pdfStartXref pages w h) ++ "\n%%EOF")))) := by
    unfold pdfBytes buildMultiPagePdf
    rw [outBytes_stWrite, foldl_xrefRows_out, outBytes_stWrite, outBytes_stWrite]
    simp only [offs_stWrite, List.append_assoc]
  refine ⟨?_, ?_, ht4.symm⟩
  · intro N h1 h2
    have hsome := pdfAfterObjects_offs_isSome pages w h N h1 h2
    obtain ⟨p, hp⟩ := Option.isSome_iff_exists.mp hsome
    have hhdr := ho4 N p h1 hp
    obtain ⟨hb1, hb2⟩ := hhdr
    refine ⟨p, by rw [hoffs_final]; exact hp, ?_⟩
    rw [hdoc]
    exact hdrAt_extend _ hb1 hb2
  · rw [hdoc, hoffs_final]

theorem c1_pdf_xref_witness :
    ∃ p, (buildMultiPagePdf [DEMO_PAGE] TABLOID_WIDTH_MM TABLOID_HEIGHT_MM).offs 1
        = some p ∧
      ((pdfBytes [DEMO_PAGE] TABLOID_WIDTH_MM TABLOID_HEIGHT_MM).drop p).take
          (objHeaderBytes 1).length = objHeaderBytes 1 :=
  (c1_pdf_xref [DEMO_PAGE] TABLOID_WIDTH_MM TABLOID_HEIGHT_MM).1 1
    (by norm_num) (by norm_num)

end Flyleaf
